import Mathlib

set_option autoImplicit false
set_option linter.unusedVariables false
set_option linter.unnecessarySimpa false

/-!
Verification of the HyllaDB query/validation/path layer.

This file is a shallow embedding of the parts of the `dev_hylladb`
repository that the design document makes claims about:

* `hylladb/hyql/enums.py` — the operator taxonomy (`Operators`,
  `Operators.is_valid_operator`);
* `hylladb/hyql/hyql_utilities.py` — the path pattern and
  `operator_validator`;
* `hylladb/hyql/validators.py` — `validate_group_format`,
  `validate_checkout_format`, `ensure_path_is_none_if_is_library`,
  `validate_paths`;
* `hylladb/hyql/hyql.py` — construction-time validation of the
  `Condition`, `Group`, `SetSchema` and `CheckOut` models;
* `hylladb/db/path_map.py` — `PathMap` (`add`/`get`/`update`/`remove`);
* `hylladb/db/paths_library/paths_library.py` — `PathsLibrary`
  (`create`/`read`/`update`/`delete`/`close`/`transaction`).

Python dictionaries are modelled as insertion-ordered association lists,
Python sets as duplicate-free lists, and raised exceptions as explicit
error values (`PyErr`).  Mutating methods are modelled as functions
returning the raised exception (if any) together with the state of the
object after the call — this keeps faithful the cases in which the
source raises after having already mutated part of the state.
-/

/-- The kinds of Python exceptions raised by the embedded code paths. -/
inductive PyErr where
  | valueError
  | typeError
  | keyError
  | runtimeError
  | attributeError
  | pathMapConsistencyError
deriving DecidableEq, Repr

/-- Lookup in a Python dict (`d.get(k)` / `d[k]`), modelled on an
insertion-ordered association list with unique keys. -/
def dictGet {α : Type} (d : List (String × α)) (k : String) : Option α :=
  match d with
  | [] => none
  | (k', v) :: rest => if k' = k then some v else dictGet rest k

/-- Membership in a Python dict (`k in d`). -/
def dictContains {α : Type} (d : List (String × α)) (k : String) : Bool :=
  (dictGet d k).isSome

/-- Python dict assignment `d[k] = v`: replaces the value in place if the
key is present, appends a new entry otherwise. -/
def dictInsert {α : Type} (d : List (String × α)) (k : String) (v : α) :
    List (String × α) :=
  match d with
  | [] => [(k, v)]
  | (k', v') :: rest =>
      if k' = k then (k', v) :: rest else (k', v') :: dictInsert rest k v

/-- Python dict deletion `d.pop(k)` / `del d[k]`: removes the (unique)
entry with key `k`. -/
def dictRemove {α : Type} (d : List (String × α)) (k : String) :
    List (String × α) :=
  match d with
  | [] => []
  | (k', v') :: rest =>
      if k' = k then rest else (k', v') :: dictRemove rest k

/-- The key sequence of a Python dict. -/
def dictKeys {α : Type} (d : List (String × α)) : List String :=
  d.map Prod.fst

/-- Python `set.add`: a no-op when the element is already present. -/
def setAdd (s : List String) (k : String) : List String :=
  if k ∈ s then s else s ++ [k]

/-- Truthiness of `d.get(key)` for a `dict[str, str]`: `None` and the
empty string are falsy, every other string is truthy. -/
def truthyOptStr : Option String → Bool
  | none => false
  | some s => s ≠ ""

/-- The HyQL path pattern from `hylladb/hyql/hyql_utilities.py`,
matching the anchored regex
`[A-Za-z0-9]+` segments joined by single `.` or `_` separators.
The Boolean argument records whether the scanner is at the start of a
segment (so a separator or end of input is currently illegal). -/
def matchPathAux : Bool → List Char → Bool
  | needSeg, [] => !needSeg
  | true, c :: rest => c.isAlphanum && matchPathAux false rest
  | false, c :: rest =>
      if c.isAlphanum then matchPathAux false rest
      else if c = '.' || c = '_' then matchPathAux true rest
      else false

/-- Full match of a string against the HyQL `path_pattern`
regex `[A-Za-z0-9]+([._][A-Za-z0-9]+)*`, anchored at both ends. -/
def isValidPathString (s : String) : Bool :=
  matchPathAux true s.toList

/-- The values of the `Operators` enum in `hylladb/hyql/enums.py`,
in declaration order. -/
def Operators.values : List String :=
  ["==", "!=", ">", "<", ">=", "<=",
   "contains", "starts_with", "ends_with", "matches",
   "in", "not in", "any", "all", "none",
   "length_eq", "length_gt", "length_lt",
   "and", "or", "not",
   "is", "is not", "isinstance",
   "abs_eq", "abs_gt", "abs_lt",
   "date_eq", "date_before", "date_after", "date_within"]

/-- `Operators.is_valid_operator` from `hylladb/hyql/enums.py`:
`any(value == op for op in cls)` on the string-valued enum members. -/
def Operators.is_valid_operator (value : String) : Bool :=
  Operators.values.any (fun op => value == op)

/-- A Python value appearing in a condition operand (`Any` in the
source); only enough structure to distinguish strings from
non-strings, which is all the validators inspect. -/
inductive HValue where
  | str : String → HValue
  | int : Int → HValue
  | bool : Bool → HValue
  | none : HValue
deriving DecidableEq, Repr

/-- The fields of the `Condition` model in `hylladb/hyql/hyql.py`
(line 18): `left_path`, `operator`, `right`, `right_is_path`. -/
structure Condition where
  left_path : String
  operator : String
  right : HValue
  right_is_path : Bool
deriving DecidableEq, Repr

/-- Construction-time validation of `Condition`
(`hylladb/hyql/hyql.py`, line 18).  Pydantic first checks the
`left_path` field against `path_dict`'s pattern and the `operator`
field through `validators.validate_operator`; the `mode="after"` model
validator then calls `validators.validate_right_is_path` — a name that
`hylladb/hyql/validators.py` never defines (it defines `validate_paths`
instead, which in turn reads a `left` attribute that `Condition` does
not have), so the attribute lookup on the module raises
`AttributeError` before any `Condition` object is produced. -/
def conditionNew (left_path : String) (operator : String) (right : HValue)
    (right_is_path : Bool) : Except PyErr Condition :=
  if !(isValidPathString left_path) then .error .valueError
  else if !(Operators.is_valid_operator operator) then .error .valueError
  else .error .attributeError

/-- The attribute shape that `validate_paths`
(`hylladb/hyql/validators.py`, line 98) actually reads:
`left`, `right` and `right_is_path`. -/
structure PathsData where
  left : HValue
  right : HValue
  right_is_path : Bool
deriving DecidableEq, Repr

/-- `validate_paths` from `hylladb/hyql/validators.py` (line 98): the
`left` value must be a string matching the path pattern, and when
`right_is_path` is set, `right` must be such a string as well. -/
def validate_paths (data : PathsData) : Except PyErr PathsData :=
  match data.left with
  | .str s =>
      if !(isValidPathString s) then .error .valueError
      else if data.right_is_path then
        match data.right with
        | .str r =>
            if !(isValidPathString r) then .error .valueError else .ok data
        | _ => .error .valueError
      else .ok data
  | _ => .error .valueError

/-- An element of a `Group`'s `group` list after pydantic has validated
the field type `list[Union[ConditionDict, Group, str]]`
(`hylladb/hyql/hyql.py`, line 113). -/
inductive GroupItem where
  | conditionDict : Condition → GroupItem
  | group : List GroupItem → GroupItem
  | str : String → GroupItem

/-- Whether a group element is a string (`isinstance(item, str)`). -/
def isStrItem : GroupItem → Bool
  | .str _ => true
  | _ => false

/-- The body of the `for i, item in enumerate(value)` loop of
`validate_group_format` (`hylladb/hyql/validators.py`, line 13), as the
conjunction of its checks at index `i`: a string item must be exactly
"AND" or "OR" (`_validate_logical_operator`) and must not sit at either
end of the list; a non-string item is necessarily a `ConditionDict` or
`Group` here, so `_validate_item_type` passes; and at every index past
the first, the item and its predecessor must not both be strings or
both be non-strings (`_validate_consecutive_types`). -/
def groupItemCheck (value : List GroupItem) (i : Fin value.length) : Bool :=
  (match value.get i with
   | .str s =>
       (s == "AND" || s == "OR") && !(i.val == 0) &&
         !(i.val == value.length - 1)
   | _ => true) &&
  (i.val == 0 ||
    isStrItem (value.get i) !=
      isStrItem (value.get ⟨i.val - 1,
        Nat.lt_of_le_of_lt (Nat.sub_le _ _) i.isLt⟩))

/-- `validate_group_format` from `hylladb/hyql/validators.py`
(line 13): the list must be non-empty and every index must pass
`groupItemCheck`; `true` means the function returns its argument,
`false` that it raises `ValueError`. -/
def validate_group_format (value : List GroupItem) : Bool :=
  !(value.isEmpty) && (List.finRange value.length).all (groupItemCheck value)

/-- `validate_checkout_format` from `hylladb/hyql/validators.py`
(line 124): rejects the empty list; rejects `"*all"` whenever the list
has more than one element; every other element must match the path
pattern. -/
def validate_checkout_format (value : List String) : Bool :=
  !(value.isEmpty) &&
  value.all (fun item =>
    if item == "*all" then !(decide (value.length > 1))
    else isValidPathString item)

/-- Construction-time validation of `CheckOut`
(`hylladb/hyql/hyql.py`, line 500): the optional `path` field must
match the path pattern when present, `limit` must be at least 1 and
`offset` at least 0 when given.  No validator of the class touches the
`checkout` field. -/
def checkOutNew (path : Option String) (checkout : List String)
    (limit : Option Int) (offset : Option Int) : Option PyErr :=
  if (match path with
      | some p => !(isValidPathString p)
      | none => false) then some .valueError
  else if (match limit with
           | some l => decide (l < 1)
           | none => false) then some .valueError
  else if (match offset with
           | some o => decide (o < 0)
           | none => false) then some .valueError
  else none

/-- `ensure_path_is_none_if_is_library` from
`hylladb/hyql/validators.py` (line 152): raises `ValueError` exactly
when `is_library` is set and `path` is truthy. -/
def ensure_path_is_none_if_is_library (path : Option String)
    (is_library : Bool) : Option PyErr :=
  if is_library && truthyOptStr path then some .valueError else none

/-- Construction-time validation of `SetSchema`
(`hylladb/hyql/hyql.py`, line 200): the optional `path` field must
match the path pattern when present, then the model validator runs
`ensure_path_is_none_if_is_library`.  No check rejects the combination
`path=None, is_library=False`, although the class docstring documents a
`ValueError` for it. -/
def setSchemaNew (path : Option String) (is_library : Bool) :
    Option PyErr :=
  if (match path with
      | some p => !(isValidPathString p)
      | none => false) then some .valueError
  else ensure_path_is_none_if_is_library path is_library

/-- `PathMap` state (`hylladb/db/path_map.py`): the `_keys_set` Python
set, modelled as a duplicate-free list, and the `_path_maps` dict from
path keys to location-descriptor dicts of string keys and values. -/
structure PathMap where
  keys_set : List String
  path_maps : List (String × List (String × String))
deriving DecidableEq, Repr

/-- `PathMap.add` (`hylladb/db/path_map.py`, line 12): duplicate keys
raise `KeyError`; a descriptor whose `path` or `key_path` entry is
missing or empty raises `ValueError` (the subsequent `isinstance`
checks cannot fail on a `dict[str, str]`); otherwise the key is added
to the set and the dict, and a key-count/entry-count mismatch detected
afterwards raises `PathMapConsistencyError` with the mutation kept. -/
def PathMap.add (m : PathMap) (path_key : String)
    (path_map : List (String × String)) : Option PyErr × PathMap :=
  if path_key ∈ m.keys_set then (some .keyError, m)
  else if !(truthyOptStr (dictGet path_map "path")) ||
          !(truthyOptStr (dictGet path_map "key_path")) then
    (some .valueError, m)
  else
    let m' : PathMap := ⟨setAdd m.keys_set path_key,
                         dictInsert m.path_maps path_key path_map⟩
    if m'.keys_set.length ≠ m'.path_maps.length then
      (some .pathMapConsistencyError, m')
    else (none, m')

/-- `PathMap.get` (`hylladb/db/path_map.py`, line 42): `KeyError` for
an unregistered key, otherwise the stored descriptor. -/
def PathMap.get (m : PathMap) (path_key : String) :
    Except PyErr (List (String × String)) :=
  if path_key ∉ m.keys_set then .error .keyError
  else match dictGet m.path_maps path_key with
       | some d => .ok d
       | none => .error .keyError

/-- `PathMap.update` (`hylladb/db/path_map.py`, line 48): `KeyError`
for an unregistered key, otherwise the descriptor is replaced with no
validation of its contents. -/
def PathMap.update (m : PathMap) (path_key : String)
    (path_map : List (String × String)) : Option PyErr × PathMap :=
  if path_key ∉ m.keys_set then (some .keyError, m)
  else (none, ⟨m.keys_set, dictInsert m.path_maps path_key path_map⟩)

/-- `PathMap.remove` (`hylladb/db/path_map.py`, line 55): `KeyError`
for an unregistered key; otherwise the key leaves the set and the
dict, followed by the same count-consistency check as `add`. -/
def PathMap.remove (m : PathMap) (path_key : String) :
    Option PyErr × PathMap :=
  if path_key ∉ m.keys_set then (some .keyError, m)
  else
    let m' : PathMap := ⟨m.keys_set.erase path_key,
                         dictRemove m.path_maps path_key⟩
    if m'.keys_set.length ≠ m'.path_maps.length then
      (some .pathMapConsistencyError, m')
    else (none, m')

/-- Well-formedness tying the two `PathMap` structures together: the
set and the dict key sequence are duplicate-free and hold the same
keys.  This is the state every sequence of successful `PathMap`
operations maintains from the empty map. -/
def PathMap.WF (m : PathMap) : Prop :=
  m.keys_set.Nodup ∧ (dictKeys m.path_maps).Nodup ∧
  (∀ x ∈ m.keys_set, x ∈ dictKeys m.path_maps) ∧
  (∀ x ∈ dictKeys m.path_maps, x ∈ m.keys_set)

instance (m : PathMap) : Decidable m.WF := by
  unfold PathMap.WF; infer_instance

/-- A location descriptor with both a non-empty `path` and a non-empty
`key_path` entry (spec §3, invariant (c) on the path namespace). -/
def validDesc (d : List (String × String)) : Bool :=
  truthyOptStr (dictGet d "path") && truthyOptStr (dictGet d "key_path")

/-- Every descriptor stored in the map is valid. -/
def PathMap.DescInv (m : PathMap) : Prop :=
  ∀ p ∈ m.path_maps, validDesc p.2 = true

instance (m : PathMap) : Decidable m.DescInv := by
  unfold PathMap.DescInv; infer_instance

/-- `PathsLibrary` state
(`hylladb/db/paths_library/paths_library.py`): the open shelve
contents, the `_is_closed` flag, and a count of how many times
`self._shelve.close()` has actually run. -/
structure PathsLibrary (V : Type) where
  shelve : List (String × V)
  is_closed : Bool
  shelve_close_calls : Nat
deriving DecidableEq

/-- `PathsLibrary.create` (line 76): `_check_closed`, then
`ValueError` if the key exists, otherwise the pair is stored. -/
def PathsLibrary.create {V : Type} (lib : PathsLibrary V)
    (path_key : String) (value : V) : Option PyErr × PathsLibrary V :=
  if lib.is_closed then (some .runtimeError, lib)
  else if dictContains lib.shelve path_key then (some .valueError, lib)
  else (none, { lib with shelve := dictInsert lib.shelve path_key value })

/-- `PathsLibrary.read` (line 92): `_check_closed`, then
`shelve.get(path_key, None)`. -/
def PathsLibrary.read {V : Type} (lib : PathsLibrary V)
    (path_key : String) : Except PyErr (Option V) :=
  if lib.is_closed then .error .runtimeError
  else .ok (dictGet lib.shelve path_key)

/-- `PathsLibrary.update` (line 105): `_check_closed`, then
`ValueError` if the key is absent, otherwise the value is replaced. -/
def PathsLibrary.update {V : Type} (lib : PathsLibrary V)
    (path_key : String) (value : V) : Option PyErr × PathsLibrary V :=
  if lib.is_closed then (some .runtimeError, lib)
  else if !(dictContains lib.shelve path_key) then (some .valueError, lib)
  else (none, { lib with shelve := dictInsert lib.shelve path_key value })

/-- `PathsLibrary.delete` (line 121): `_check_closed`, then
`ValueError` if the key is absent, otherwise the entry is deleted. -/
def PathsLibrary.delete {V : Type} (lib : PathsLibrary V)
    (path_key : String) : Option PyErr × PathsLibrary V :=
  if lib.is_closed then (some .runtimeError, lib)
  else if !(dictContains lib.shelve path_key) then (some .valueError, lib)
  else (none, { lib with shelve := dictRemove lib.shelve path_key })

/-- `PathsLibrary.close` (line 136): closes the underlying shelve and
sets the flag only when the flag is not already set. -/
def PathsLibrary.close {V : Type} (lib : PathsLibrary V) :
    PathsLibrary V :=
  if lib.is_closed then lib
  else { lib with is_closed := true,
                  shelve_close_calls := lib.shelve_close_calls + 1 }

/-- A mutating operation run inside a `transaction` block. -/
inductive LibOp (V : Type) where
  | create (path_key : String) (value : V)
  | update (path_key : String) (value : V)
  | delete (path_key : String)

/-- Dispatch of one transaction-body operation. -/
def applyOp {V : Type} (lib : PathsLibrary V) :
    LibOp V → Option PyErr × PathsLibrary V
  | .create k v => lib.create k v
  | .update k v => lib.update k v
  | .delete k => lib.delete k

/-- Sequential execution of a transaction body: stops at the first
operation that raises, returning that exception and the state the
library had reached. -/
def runOps {V : Type} (lib : PathsLibrary V) :
    List (LibOp V) → Option PyErr × PathsLibrary V
  | [] => (none, lib)
  | op :: rest =>
      match applyOp lib op with
      | (none, lib') => runOps lib' rest
      | (some e, lib') => (some e, lib')

/-- Python `d.update(other)`: insert every entry of `other`, in order,
into `d`. -/
def dictUpdateAll {α : Type} (d other : List (String × α)) :
    List (String × α) :=
  other.foldl (fun acc p => dictInsert acc p.1 p.2) d

/-- The `transaction` context manager
(`hylladb/db/paths_library/paths_library.py`, line 157): a snapshot
`dict(self._shelve)` is taken before the body runs; on any exception
the shelve is cleared, refilled from the snapshot with
`self._shelve.update(snapshot)`, and the original exception is
re-raised unchanged. -/
def PathsLibrary.transaction {V : Type} (lib : PathsLibrary V)
    (ops : List (LibOp V)) : Option PyErr × PathsLibrary V :=
  let snapshot := lib.shelve
  match runOps lib ops with
  | (none, lib') => (none, lib')
  | (some e, lib') =>
      (some e, { lib' with shelve := dictUpdateAll [] snapshot })

/-- Modelled from the spec: the design document's enumerated operator
union (§4.1 / claim C8), written exactly as the spec lists it — in
particular with the identity operator spelled "is_not".  Kept separate
from `Operators.values`, which transcribes the source enum, so the two
can be compared. -/
def specOperatorUnion : List String :=
  ["==", "!=", ">", "<", ">=", "<=",
   "contains", "starts_with", "ends_with", "matches",
   "in", "not in", "any", "all", "none",
   "length_eq", "length_gt", "length_lt",
   "and", "or", "not",
   "is", "is_not", "isinstance",
   "abs_eq", "abs_gt", "abs_lt",
   "date_eq", "date_before", "date_after", "date_within"]

@[simp] theorem dictGet_nil {α : Type} (k : String) :
    dictGet ([] : List (String × α)) k = none := rfl

@[simp] theorem dictGet_dictInsert_self {α : Type}
    (d : List (String × α)) (k : String) (v : α) :
    dictGet (dictInsert d k v) k = some v := by
  induction d with
  | nil => simp [dictInsert, dictGet]
  | cons p rest ih =>
      obtain ⟨k', v'⟩ := p
      by_cases h : k' = k <;> simp [dictInsert, dictGet, h, ih]

@[simp] theorem dictGet_dictInsert_ne {α : Type}
    (d : List (String × α)) (k k' : String) (v : α) (h : k' ≠ k) :
    dictGet (dictInsert d k v) k' = dictGet d k' := by
  induction d with
  | nil =>
      have hne : ¬ k = k' := fun hh => h hh.symm
      simp [dictInsert, dictGet, hne]
  | cons p rest ih =>
      obtain ⟨k₀, v₀⟩ := p
      by_cases h0 : k₀ = k
      · subst h0
        have hne : ¬ k₀ = k' := fun hh => h hh.symm
        simp [dictInsert, dictGet, hne]
      · simp only [dictInsert, if_neg h0]
        by_cases h1 : k₀ = k' <;> simp [dictGet, h1, ih]

theorem dictInsert_of_not_contains {α : Type}
    (d : List (String × α)) (k : String) (v : α)
    (h : dictGet d k = none) : dictInsert d k v = d ++ [(k, v)] := by
  induction d with
  | nil => simp [dictInsert]
  | cons p rest ih =>
      obtain ⟨k', v'⟩ := p
      by_cases h0 : k' = k
      · simp [dictGet, h0] at h
      · simp only [dictGet, if_neg h0] at h
        simp [dictInsert, h0, ih h]

theorem dictGet_eq_none_of_not_mem_keys {α : Type}
    (d : List (String × α)) (k : String) (h : k ∉ dictKeys d) :
    dictGet d k = none := by
  induction d with
  | nil => rfl
  | cons p rest ih =>
      obtain ⟨k', v'⟩ := p
      simp only [dictKeys, List.map_cons, List.mem_cons] at h
      push_neg at h
      have hne : ¬ k' = k := fun hh => h.1 hh.symm
      simp [dictGet, hne, ih (by simpa [dictKeys] using h.2)]

theorem mem_dictInsert {α : Type}
    (d : List (String × α)) (k : String) (v : α) (p : String × α)
    (h : p ∈ dictInsert d k v) : p = (k, v) ∨ p ∈ d := by
  induction d with
  | nil => simpa [dictInsert] using h
  | cons q rest ih =>
      obtain ⟨k', v'⟩ := q
      by_cases h0 : k' = k
      · subst h0
        rcases (by simpa [dictInsert] using h :
            p = (k', v) ∨ p ∈ rest) with h1 | h1
        · exact Or.inl h1
        · exact Or.inr (List.mem_cons_of_mem _ h1)
      · rcases (by simpa [dictInsert, h0] using h :
            p = (k', v') ∨ p ∈ dictInsert rest k v) with h1 | h1
        · exact Or.inr (by simp [h1])
        · rcases ih h1 with h2 | h2
          · exact Or.inl h2
          · exact Or.inr (List.mem_cons_of_mem _ h2)

theorem mem_dictRemove {α : Type}
    (d : List (String × α)) (k : String) (p : String × α)
    (h : p ∈ dictRemove d k) : p ∈ d := by
  induction d with
  | nil => simpa [dictRemove] using h
  | cons q rest ih =>
      obtain ⟨k', v'⟩ := q
      by_cases h0 : k' = k
      · simp only [dictRemove, if_pos h0] at h
        exact List.mem_cons_of_mem _ h
      · simp only [dictRemove, if_neg h0, List.mem_cons] at h
        rcases h with h1 | h1
        · simp [h1]
        · exact List.mem_cons_of_mem _ (ih h1)

/-- A library whose closed flag is set is left unchanged by `close`. -/
theorem close_of_closed {V : Type} (l : PathsLibrary V)
    (h : l.is_closed = true) : l.close = l := by
  unfold PathsLibrary.close
  rw [h]
  simp

/-- C1 (the claim "for every construction of a Condition query model,
validation succeeds iff the operator is in the taxonomy, at least one
path flag is set, and every flagged operand matches the path grammar"
names behaviour the code cannot exhibit): every `Condition`
construction fails, because the model validator calls
`validators.validate_right_is_path`, a function `validators.py` does
not define, raising `AttributeError`.  In particular the construction
`Condition(left_path="path1.field1", operator=">", right=100)` — which
the claim, and the repository's own `test_condition_valid`, require to
succeed — fails. -/
theorem condition_construction_never_succeeds :
    (∀ lp op r rp, ∃ e, conditionNew lp op r rp = Except.error e) ∧
    conditionNew "path1.field1" ">" (HValue.int 100) false =
      Except.error PyErr.attributeError := by
  constructor
  · intro lp op r rp
    unfold conditionNew
    by_cases h1 : isValidPathString lp <;>
      by_cases h2 : Operators.is_valid_operator op <;>
        simp [h1, h2]
  · rfl

/-- C6 (code bug): `SetSchema` construction rejects a non-null `path`
combined with `is_library=True`, but accepts `path=None` combined with
`is_library=False` — the second rejection the claim (and the class's
own docstring) requires is not implemented by
`ensure_path_is_none_if_is_library`. -/
theorem set_schema_null_path_non_library_accepted :
    setSchemaNew (some "a.b") true = some PyErr.valueError ∧
    setSchemaNew none false = none ∧
    setSchemaNew none true = none ∧
    setSchemaNew (some "a.b") false = none := by decide

/-- C7 (code bug): the standalone `validate_checkout_format` rejects a
checkout list holding `"*all"` next to another element, but no query
model invokes it — `CheckOut` has no validator on its `checkout` field
(and the `CheckOutItem` model the tests exercise does not exist) — so
constructing a checkout query with `checkout=["*all", "field1"]`
succeeds, contrary to the claim. -/
theorem checkout_all_not_alone_divergence :
    checkOutNew (some "a.b") ["*all", "field1"] none none = none ∧
    validate_checkout_format ["*all", "field1"] = false := by decide

/-- C8 counterexample: the claim that `is_valid_operator` returns true
exactly on the spec's enumerated union fails at the token "is_not":
the spec's union contains it, but the source enum spells that member
"is not", so the predicate returns false. -/
theorem is_valid_operator_spec_counterexample :
    ¬ (Operators.is_valid_operator "is_not" = true ↔
        "is_not" ∈ specOperatorUnion) := by decide

/-- C8 (amended: the predicate returns true exactly on the spec's
enumerated union with the identity operator "is_not" read as the
source's token "is not"): membership in the thirty-one listed
tokens. -/
theorem is_valid_operator_amended (s : String) :
    Operators.is_valid_operator s = true ↔
      s ∈ ["==", "!=", ">", "<", ">=", "<=",
           "contains", "starts_with", "ends_with", "matches",
           "in", "not in", "any", "all", "none",
           "length_eq", "length_gt", "length_lt",
           "and", "or", "not",
           "is", "is not", "isinstance",
           "abs_eq", "abs_gt", "abs_lt",
           "date_eq", "date_before", "date_after", "date_within"] := by
  simp [Operators.is_valid_operator, Operators.values, List.any_eq_true]

/-- C10: once `close()` has run, the closed flag is set; every later
`create`/`read`/`update`/`delete` raises `RuntimeError` and leaves the
stored content (indeed the whole state) unchanged; and a second
`close()` is a no-op that neither raises nor closes the underlying
shelve again (the close-call count stays put). -/
theorem paths_library_closed_ops {V : Type} (lib : PathsLibrary V)
    (k : String) (v : V) :
    (lib.close).is_closed = true ∧
    (lib.close).create k v = (some PyErr.runtimeError, lib.close) ∧
    (lib.close).read k = Except.error PyErr.runtimeError ∧
    (lib.close).update k v = (some PyErr.runtimeError, lib.close) ∧
    (lib.close).delete k = (some PyErr.runtimeError, lib.close) ∧
    (lib.close).close = lib.close := by
  have hc : (lib.close).is_closed = true := by
    unfold PathsLibrary.close
    by_cases h : lib.is_closed <;> simp [h]
  refine ⟨hc, ?_, ?_, ?_, ?_, close_of_closed _ hc⟩
  · unfold PathsLibrary.create; rw [hc]; simp
  · unfold PathsLibrary.read; rw [hc]; simp
  · unfold PathsLibrary.update; rw [hc]; simp
  · unfold PathsLibrary.delete; rw [hc]; simp

/-- Under well-formedness the key count equals the entry count — the
consistency condition `PathMap`'s mutators re-check. -/
theorem PathMap.WF.length_eq {m : PathMap} (h : m.WF) :
    m.keys_set.length = m.path_maps.length := by
  obtain ⟨h1, h2, h3, h4⟩ := h
  have hperm : m.keys_set.Perm (dictKeys m.path_maps) :=
    (List.perm_ext_iff_of_nodup h1 h2).2 (fun a => ⟨h3 a, h4 a⟩)
  simpa [dictKeys] using hperm.length_eq

/-- C4: on a well-formed map, `add` with an absent key and a descriptor
carrying non-empty `path` and `key_path` entries succeeds, and `get`
with the same key then returns exactly the descriptor written; `add`
with a key that is already registered raises `KeyError` and returns
with the map state untouched, whatever descriptor was supplied. -/
theorem pathmap_add_get_roundtrip (m : PathMap) (k kdup : String)
    (d ddup : List (String × String))
    (hwf : m.WF) (habs : k ∉ m.keys_set)
    (hpath : truthyOptStr (dictGet d "path") = true)
    (hkey : truthyOptStr (dictGet d "key_path") = true)
    (hdup : kdup ∈ m.keys_set) :
    (m.add k d).1 = none ∧
    (m.add k d).2.get k = Except.ok d ∧
    m.add kdup ddup = (some PyErr.keyError, m) := by
  have hkd : k ∉ dictKeys m.path_maps := fun hmem => habs (hwf.2.2.2 k hmem)
  have hnone : dictGet m.path_maps k = none :=
    dictGet_eq_none_of_not_mem_keys _ _ hkd
  have hsetAdd : setAdd m.keys_set k = m.keys_set ++ [k] := by
    simp [setAdd, habs]
  have hins : dictInsert m.path_maps k d = m.path_maps ++ [(k, d)] :=
    dictInsert_of_not_contains _ _ _ hnone
  have hlen : (setAdd m.keys_set k).length =
      (dictInsert m.path_maps k d).length := by
    rw [hsetAdd, hins]
    simp [hwf.length_eq]
  have hadd : m.add k d =
      (none, ⟨setAdd m.keys_set k, dictInsert m.path_maps k d⟩) := by
    unfold PathMap.add
    rw [if_neg habs]
    simp only [hpath, hkey, Bool.not_true, Bool.or_self, Bool.false_eq_true,
      if_false]
    rw [if_neg (by simpa using hlen)]
  refine ⟨by rw [hadd], ?_, ?_⟩
  · rw [hadd]
    unfold PathMap.get
    have hk : k ∈ setAdd m.keys_set k := by
      rw [hsetAdd]; simp
    rw [if_neg (by simpa using hk)]
    simp
  · unfold PathMap.add
    rw [if_pos hdup]

/-- C4 witness: the round-trip and the duplicate failure at a concrete
one-entry map. -/
theorem pathmap_add_get_roundtrip_witness :
    ((⟨["a.b"], [("a.b", [("path", "p"), ("key_path", "q")])]⟩ :
        PathMap).add "c" [("path", "p2"), ("key_path", "q2")]).1 = none ∧
    ((⟨["a.b"], [("a.b", [("path", "p"), ("key_path", "q")])]⟩ :
        PathMap).add "c" [("path", "p2"), ("key_path", "q2")]).2.get "c" =
      Except.ok [("path", "p2"), ("key_path", "q2")] ∧
    (⟨["a.b"], [("a.b", [("path", "p"), ("key_path", "q")])]⟩ :
        PathMap).add "a.b" [("path", "x"), ("key_path", "y")] =
      (some PyErr.keyError,
       ⟨["a.b"], [("a.b", [("path", "p"), ("key_path", "q")])]⟩) :=
  pathmap_add_get_roundtrip _ _ _ _ _ (by decide) (by decide) (by decide)
    (by decide) (by decide)

/-- C9: `update` on a registered key succeeds, leaves the registered
key set untouched, makes `get` on that key return the new descriptor,
and leaves `get` on every other key exactly as it was. -/
theorem pathmap_update_frame (m : PathMap) (k : String)
    (d : List (String × String)) (hmem : k ∈ m.keys_set) :
    (m.update k d).1 = none ∧
    (m.update k d).2.keys_set = m.keys_set ∧
    (m.update k d).2.get k = Except.ok d ∧
    (∀ k', k' ≠ k → (m.update k d).2.get k' = m.get k') := by
  have hupd : m.update k d =
      (none, ⟨m.keys_set, dictInsert m.path_maps k d⟩) := by
    unfold PathMap.update
    rw [if_neg (by simpa using hmem)]
  refine ⟨by rw [hupd], by rw [hupd], ?_, ?_⟩
  · rw [hupd]
    unfold PathMap.get
    rw [if_neg (by simpa using hmem)]
    simp
  · intro k' hk'
    rw [hupd]
    unfold PathMap.get
    by_cases h : k' ∈ m.keys_set
    · rw [if_neg (by simpa using h), if_neg (by simpa using h),
        dictGet_dictInsert_ne _ _ _ _ hk']
    · rw [if_pos (by simpa using h), if_pos (by simpa using h)]

/-- C9 witness: updating one key of a two-entry map changes only that
key's descriptor. -/
theorem pathmap_update_frame_witness :
    ((⟨["a", "b"],
        [("a", [("path", "pa"), ("key_path", "qa")]),
         ("b", [("path", "pb"), ("key_path", "qb")])]⟩ :
        PathMap).update "a" [("path", "p2"), ("key_path", "q2")]).1 =
      none ∧
    ((⟨["a", "b"],
        [("a", [("path", "pa"), ("key_path", "qa")]),
         ("b", [("path", "pb"), ("key_path", "qb")])]⟩ :
        PathMap).update "a" [("path", "p2"), ("key_path", "q2")]).2.keys_set =
      ["a", "b"] ∧
    ((⟨["a", "b"],
        [("a", [("path", "pa"), ("key_path", "qa")]),
         ("b", [("path", "pb"), ("key_path", "qb")])]⟩ :
        PathMap).update "a" [("path", "p2"), ("key_path", "q2")]).2.get "a" =
      Except.ok [("path", "p2"), ("key_path", "q2")] ∧
    ((⟨["a", "b"],
        [("a", [("path", "pa"), ("key_path", "qa")]),
         ("b", [("path", "pb"), ("key_path", "qb")])]⟩ :
        PathMap).update "a" [("path", "p2"), ("key_path", "q2")]).2.get "b" =
      (⟨["a", "b"],
        [("a", [("path", "pa"), ("key_path", "qa")]),
         ("b", [("path", "pb"), ("key_path", "qb")])]⟩ :
        PathMap).get "b" := by
  have h := pathmap_update_frame
    (⟨["a", "b"],
      [("a", [("path", "pa"), ("key_path", "qa")]),
       ("b", [("path", "pb"), ("key_path", "qb")])]⟩ : PathMap)
    "a" [("path", "p2"), ("key_path", "q2")] (by decide)
  exact ⟨h.1, h.2.1, h.2.2.1, h.2.2.2 "b" (by decide)⟩

/-- C5 counterexample: starting from a map whose single stored
descriptor has non-empty `path` and `key_path` entries, the successful
operation `update("a", {"path": "", "key_path": ""})` leaves the map
holding a descriptor with empty fields — `update` stores its argument
without any validation, so the claimed invariant is not preserved by
every successful operation. -/
theorem pathmap_update_descinv_counterexample :
    (⟨["a"], [("a", [("path", "p"), ("key_path", "q")])]⟩ :
        PathMap).DescInv ∧
    ((⟨["a"], [("a", [("path", "p"), ("key_path", "q")])]⟩ :
        PathMap).update "a" [("path", ""), ("key_path", "")]).1 = none ∧
    ¬ ((⟨["a"], [("a", [("path", "p"), ("key_path", "q")])]⟩ :
        PathMap).update "a" [("path", ""), ("key_path", "")]).2.DescInv := by
  refine ⟨by decide, by decide, ?_⟩
  intro h
  have := h ("a", [("path", ""), ("key_path", "")]) (by decide)
  simp [validDesc, dictGet, truthyOptStr] at this

/-- C5 (amended: every descriptor stored through `add` has non-empty
`path` and `key_path` entries, and successful `add` and `remove` calls
preserve that invariant over the whole map; a successful `update`
preserves it only when the descriptor it is handed is itself valid,
since `update` performs no validation of its own; `get` does not change
the state at all): preservation of the descriptor-field invariant. -/
theorem pathmap_desc_fields_invariant (m : PathMap) (k : String)
    (d : List (String × String)) (hinv : m.DescInv) :
    ((m.add k d).1 = none → (m.add k d).2.DescInv) ∧
    ((m.remove k).1 = none → (m.remove k).2.DescInv) ∧
    (validDesc d = true → (m.update k d).1 = none →
      (m.update k d).2.DescInv) := by
  refine ⟨?_, ?_, ?_⟩
  · intro hok
    unfold PathMap.add at hok ⊢
    by_cases h1 : k ∈ m.keys_set
    · rw [if_pos h1] at hok
      simp at hok
    · rw [if_neg h1] at hok ⊢
      by_cases h2 : (!(truthyOptStr (dictGet d "path")) ||
          !(truthyOptStr (dictGet d "key_path"))) = true
      · rw [if_pos h2] at hok
        simp at hok
      · rw [if_neg h2] at hok ⊢
        have hd : validDesc d = true := by
          by_cases hp : truthyOptStr (dictGet d "path") <;>
            by_cases hq : truthyOptStr (dictGet d "key_path") <;>
              simp [validDesc, hp, hq] at h2 ⊢
        by_cases h3 : (setAdd m.keys_set k).length ≠
            (dictInsert m.path_maps k d).length
        · rw [if_pos h3] at hok
          simp at hok
        · rw [if_neg h3]
          intro p hp
          rcases mem_dictInsert _ _ _ _ hp with h4 | h4
          · rw [h4]
            exact hd
          · exact hinv p h4
  · intro hok
    unfold PathMap.remove at hok ⊢
    by_cases h1 : k ∉ m.keys_set
    · rw [if_pos h1] at hok
      simp at hok
    · rw [if_neg h1] at hok ⊢
      by_cases h3 : (m.keys_set.erase k).length ≠
          (dictRemove m.path_maps k).length
      · rw [if_pos h3] at hok
        simp at hok
      · rw [if_neg h3]
        intro p hp
        exact hinv p (mem_dictRemove _ _ _ hp)
  · intro hd hok
    unfold PathMap.update at hok ⊢
    by_cases h1 : k ∉ m.keys_set
    · rw [if_pos h1] at hok
      simp at hok
    · rw [if_neg h1]
      intro p hp
      rcases mem_dictInsert _ _ _ _ hp with h4 | h4
      · rw [h4]
        exact hd
      · exact hinv p h4

/-- C5 witness: the amended preservation statement at a concrete
one-entry map and a fresh key with a valid descriptor. -/
theorem pathmap_desc_fields_invariant_witness :
    (((⟨["a"], [("a", [("path", "p"), ("key_path", "q")])]⟩ :
        PathMap).add "b" [("path", "r"), ("key_path", "s")]).1 = none →
      ((⟨["a"], [("a", [("path", "p"), ("key_path", "q")])]⟩ :
        PathMap).add "b" [("path", "r"), ("key_path", "s")]).2.DescInv) ∧
    (((⟨["a"], [("a", [("path", "p"), ("key_path", "q")])]⟩ :
        PathMap).remove "b").1 = none →
      ((⟨["a"], [("a", [("path", "p"), ("key_path", "q")])]⟩ :
        PathMap).remove "b").2.DescInv) ∧
    (validDesc [("path", "r"), ("key_path", "s")] = true →
      ((⟨["a"], [("a", [("path", "p"), ("key_path", "q")])]⟩ :
        PathMap).update "b" [("path", "r"), ("key_path", "s")]).1 = none →
      ((⟨["a"], [("a", [("path", "p"), ("key_path", "q")])]⟩ :
        PathMap).update "b" [("path", "r"), ("key_path", "s")]).2.DescInv) :=
  pathmap_desc_fields_invariant _ _ _ (by decide)

@[simp] theorem dictUpdateAll_nil_other {α : Type}
    (d : List (String × α)) : dictUpdateAll d [] = d := rfl

theorem dictUpdateAll_cons {α : Type} (d : List (String × α))
    (p : String × α) (rest : List (String × α)) :
    dictUpdateAll d (p :: rest) =
      dictUpdateAll (dictInsert d p.1 p.2) rest := rfl

theorem dictGet_append {α : Type} (l₁ l₂ : List (String × α))
    (k : String) :
    dictGet (l₁ ++ l₂) k =
      match dictGet l₁ k with
      | some v => some v
      | none => dictGet l₂ k := by
  induction l₁ with
  | nil => simp [dictGet]
  | cons p rest ih =>
      obtain ⟨k', v'⟩ := p
      by_cases h : k' = k <;> simp [dictGet, h, ih]

/-- Updating a dict with entries whose keys are fresh and mutually
distinct appends them in order. -/
theorem dictUpdateAll_eq_append {α : Type}
    (l : List (String × α)) : ∀ (acc : List (String × α)),
    (∀ k ∈ dictKeys l, dictGet acc k = none) →
    (dictKeys l).Nodup → dictUpdateAll acc l = acc ++ l := by
  induction l with
  | nil => intro acc _ _; simp
  | cons p rest ih =>
      intro acc hdisj hnd
      obtain ⟨k, v⟩ := p
      have hk : dictGet acc k = none := hdisj k (by simp [dictKeys])
      have hnd' : (dictKeys rest).Nodup :=
        (List.nodup_cons.1 (by simpa [dictKeys] using hnd)).2
      have hknotin : k ∉ dictKeys rest :=
        (List.nodup_cons.1 (by simpa [dictKeys] using hnd)).1
      rw [dictUpdateAll_cons]
      simp only
      rw [dictInsert_of_not_contains _ _ _ hk]
      have hdisj' : ∀ k' ∈ dictKeys rest,
          dictGet (acc ++ [(k, v)]) k' = none := by
        intro k' hk'
        have hmem : k' ∈ dictKeys ((k, v) :: rest) := by
          simp only [dictKeys, List.map_cons]
          exact List.mem_cons_of_mem _ (by simpa [dictKeys] using hk')
        rw [dictGet_append, hdisj k' hmem]
        have hne : ¬ k = k' := fun h => hknotin (h ▸ hk')
        simp [dictGet, hne]
      rw [ih _ hdisj' hnd']
      simp

/-- Clearing a dict and refilling it from a snapshot with unique keys
reproduces the snapshot exactly. -/
theorem dictUpdateAll_nil_left {α : Type} (l : List (String × α))
    (hnd : (dictKeys l).Nodup) : dictUpdateAll [] l = l := by
  simpa using dictUpdateAll_eq_append l [] (fun k _ => rfl) hnd

/-- C3: if running a transaction body of create/update/delete
operations raises some exception, then the transaction returns exactly
that exception — `PyErr` has no rollback-specific variant and the
`except` clause re-raises the caught error unchanged — and the stored
key-to-value content after the transaction equals the snapshot taken
before it started. -/
theorem transaction_rolls_back_and_reraises {V : Type}
    (lib : PathsLibrary V) (ops : List (LibOp V)) (e : PyErr)
    (hnodup : (dictKeys lib.shelve).Nodup)
    (hfail : (runOps lib ops).1 = some e) :
    (lib.transaction ops).1 = some e ∧
    (lib.transaction ops).2.shelve = lib.shelve := by
  unfold PathsLibrary.transaction
  rcases hrun : runOps lib ops with ⟨oe, lib'⟩
  rw [hrun] at hfail
  simp only at hfail
  subst hfail
  simp [dictUpdateAll_nil_left _ hnodup]

/-- C3 witness: a transaction whose first create succeeds and whose
delete of an unregistered path then raises leaves the shelve exactly
as it was before the transaction, and surfaces the delete's
`ValueError`. -/
theorem transaction_rolls_back_witness :
    ((⟨[("path1", "a")], false, 0⟩ : PathsLibrary String).transaction
        [LibOp.create "path2" "b", LibOp.delete "bad"]).1 =
      some PyErr.valueError ∧
    ((⟨[("path1", "a")], false, 0⟩ : PathsLibrary String).transaction
        [LibOp.create "path2" "b", LibOp.delete "bad"]).2.shelve =
      (⟨[("path1", "a")], false, 0⟩ : PathsLibrary String).shelve :=
  transaction_rolls_back_and_reraises _ _ _ (by decide) (by decide)

theorem head?_eq_get_zero {α : Type} (l : List α) (h : 0 < l.length) :
    l.head? = some (l.get ⟨0, h⟩) := by
  cases l
  · simp at h
  · rfl

theorem getLast?_eq_get_last {α : Type} (l : List α) (h : l ≠ []) :
    l.getLast? = some (l.get ⟨l.length - 1, by
      have := List.length_pos.2 h
      omega⟩) := by
  rw [List.getLast?_eq_getLast_of_ne_nil h]
  congr 1
  rw [List.getLast_eq_getElem, List.get_eq_getElem]

theorem get_val_eq {α : Type} (l : List α) (i j : Fin l.length)
    (h : i.val = j.val) : l.get i = l.get j := by
  have hij : i = j := Fin.ext h
  rw [hij]

/-- C2: `validate_group_format` succeeds exactly when the supplied
list is non-empty, its first and last elements are non-operator items,
every operator token in it is exactly "AND" or "OR", and operator
tokens strictly alternate with non-operator items (no two adjacent
elements are both tokens or both non-tokens). -/
theorem validate_group_format_iff (value : List GroupItem) :
    validate_group_format value = true ↔
      value ≠ [] ∧
      (∀ s, GroupItem.str s ∈ value → s = "AND" ∨ s = "OR") ∧
      (∀ it, value.head? = some it → isStrItem it = false) ∧
      (∀ it, value.getLast? = some it → isStrItem it = false) ∧
      List.Chain' (fun a b => isStrItem a ≠ isStrItem b) value := by
  unfold validate_group_format
  rw [Bool.and_eq_true]
  constructor
  · rintro ⟨hne', hall⟩
    have hne : value ≠ [] := by
      cases value
      · simp at hne'
      · simp
    have hch : ∀ i : Fin value.length, groupItemCheck value i = true :=
      fun i => List.all_eq_true.1 hall i (List.mem_finRange i)
    have hstr : ∀ (i : Fin value.length) (s : String),
        value.get i = GroupItem.str s →
        (s = "AND" ∨ s = "OR") ∧ i.val ≠ 0 ∧ i.val ≠ value.length - 1 := by
      intro i s hget
      have h := hch i
      unfold groupItemCheck at h
      rw [hget, Bool.and_eq_true] at h
      have h1 := h.1
      simp at h1
      exact ⟨h1.1.1, h1.1.2, h1.2⟩
    have halt : ∀ i : Fin value.length, i.val ≠ 0 →
        isStrItem (value.get i) ≠ isStrItem (value.get ⟨i.val - 1,
          Nat.lt_of_le_of_lt (Nat.sub_le _ _) i.isLt⟩) := by
      intro i h0
      have h := hch i
      unfold groupItemCheck at h
      rw [Bool.and_eq_true, Bool.or_eq_true] at h
      rcases h.2 with h1 | h1
      · exact absurd (by simpa using h1) h0
      · simpa using h1
    refine ⟨hne, ?_, ?_, ?_, ?_⟩
    · intro s hs
      obtain ⟨i, hi⟩ := List.mem_iff_get.1 hs
      exact (hstr i s hi).1
    · intro it hit
      have hpos : 0 < value.length := List.length_pos.2 hne
      rw [head?_eq_get_zero value hpos] at hit
      have hit' : value.get ⟨0, hpos⟩ = it := Option.some.inj hit
      by_contra hcon
      have hb : isStrItem it = true := by
        revert hcon
        cases isStrItem it <;> simp
      obtain ⟨s, rfl⟩ : ∃ s, it = GroupItem.str s := by
        cases it with
        | str s => exact ⟨s, rfl⟩
        | conditionDict c => simp [isStrItem] at hb
        | group g => simp [isStrItem] at hb
      exact (hstr ⟨0, hpos⟩ s hit').2.1 rfl
    · intro it hit
      have hpos : 0 < value.length := List.length_pos.2 hne
      have hlt : value.length - 1 < value.length := by omega
      rw [getLast?_eq_get_last value hne] at hit
      have hit' : value.get ⟨value.length - 1, hlt⟩ = it :=
        Option.some.inj hit
      by_contra hcon
      have hb : isStrItem it = true := by
        revert hcon
        cases isStrItem it <;> simp
      obtain ⟨s, rfl⟩ : ∃ s, it = GroupItem.str s := by
        cases it with
        | str s => exact ⟨s, rfl⟩
        | conditionDict c => simp [isStrItem] at hb
        | group g => simp [isStrItem] at hb
      exact (hstr ⟨value.length - 1, hlt⟩ s hit').2.2 rfl
    · rw [List.chain'_iff_get]
      intro i hi
      have hj : i + 1 < value.length := by omega
      have h := halt ⟨i + 1, hj⟩ (Nat.succ_ne_zero i)
      exact Ne.symm h
  · rintro ⟨hne, htok, hhead, hlast, hchain⟩
    constructor
    · cases value
      · exact absurd rfl hne
      · simp
    · rw [List.all_eq_true]
      intro i _
      unfold groupItemCheck
      rw [Bool.and_eq_true]
      constructor
      · cases hget : value.get i with
        | conditionDict c => rfl
        | group g => rfl
        | str s =>
            have hs := htok s (List.mem_iff_get.2 ⟨i, hget⟩)
            have h0 : i.val ≠ 0 := by
              intro hv0
              have hpos : 0 < value.length := i.pos
              have hh := hhead (value.get ⟨0, hpos⟩)
                (head?_eq_get_zero value hpos)
              have hieq : i = ⟨0, hpos⟩ := Fin.ext hv0
              rw [hieq] at hget
              rw [hget] at hh
              simp [isStrItem] at hh
            have hl : i.val ≠ value.length - 1 := by
              intro hvl
              have hlt : value.length - 1 < value.length := by
                have := i.pos
                omega
              have hh := hlast (value.get ⟨value.length - 1, hlt⟩)
                (getLast?_eq_get_last value hne)
              have hieq : i = ⟨value.length - 1, hlt⟩ := Fin.ext hvl
              rw [hieq] at hget
              rw [hget] at hh
              simp [isStrItem] at hh
            rcases hs with rfl | rfl <;> simp [h0, hl]
      · by_cases h0 : i.val = 0
        · simp [h0]
        · rw [Bool.or_eq_true]
          right
          rw [bne_iff_ne]
          have hbound : i.val - 1 + 1 < value.length := by
            have := i.isLt
            omega
          have h1 : isStrItem (value.get ⟨i.val - 1 + 1, hbound⟩) ≠
              isStrItem (value.get ⟨i.val - 1,
                Nat.lt_of_le_of_lt (Nat.sub_le _ _) i.isLt⟩) := by
            have hc := List.chain'_iff_get.1 hchain (i.val - 1)
              (by have := i.isLt; omega)
            exact Ne.symm hc
          have h2 : value.get ⟨i.val - 1 + 1, hbound⟩ = value.get i :=
            get_val_eq value _ i (by
              show i.val - 1 + 1 = i.val
              omega)
          rw [h2] at h1
          exact h1
